import Mathlib

/-! # Verification of the yuri lexer (src/yuri-lexer/src/lib.rs)

Shallow embedding of the nom-based lexer. The Rust source builds tokens with
nom combinators over `nom_locate::LocatedSpan<&str>`:

* ten single-character symbol recognizers generated by the `token_symbol!`
  macro (each a `tag` of one character),
* `token_ident = recognize(tuple((alpha1, alphanumeric0)))` (nom's `alpha1`
  and `alphanumeric0` are ASCII classifiers),
* `next_token = delimited(multispace0, alt((symbols..., token_ident)), multispace0)`.

A `LocatedSpan` carries the remaining input together with the 1-based line of
its first character; the 1-based column is the distance from the last newline.
We embed it as `Span` with the line/column tracked explicitly, advanced one
character at a time (`\n` increments the line and resets the column to 1, any
other character increments the column), which coincides with nom_locate's
offset/line bookkeeping on every input.

`IResult<Span, Token>` is embedded as `Except Span (Span × Token)`: nom's
default error type carries the input span at which the failing recognizer was
applied (all recognizers here fail without consuming, so every branch of the
`alt`, and hence the `alt` itself, reports the post-trivia span).
-/

namespace Yuri

/-- Token kinds, the `TokenKind` enum of the source. -/
inductive TokenKind where
  | Ident
  | ParenOpen
  | ParenClose
  | BraceOpen
  | BraceClose
  | Colon
  | Equal
  | Plus
  | Minus
  | Star
  | Slash
  deriving DecidableEq, Repr

/-- Embedding of `nom_locate::LocatedSpan<&str>`: the remaining input and the
1-based line/column of its first character. -/
structure Span where
  text : List Char
  line : Nat
  col : Nat
  deriving DecidableEq, Repr

/-- The `Token` struct of the source: a kind plus the matched fragment with
the position of its first character. -/
structure Token where
  kind : TokenKind
  text : List Char
  line : Nat
  col : Nat
  deriving DecidableEq, Repr

/-- Characters consumed by nom's `multispace0`: space, tab, carriage return,
line feed. -/
def isMultispace (c : Char) : Bool :=
  c = ' ' || c = '\t' || c = '\n' || c = '\r'

/-- Position bookkeeping of `nom_locate` for one consumed character: a newline
increments the line and resets the column to 1, any other character increments
the column. -/
def advancePos (l c : Nat) (ch : Char) : Nat × Nat :=
  if ch = '\n' then (l + 1, 1) else (l, c + 1)

/-- Advance the position across a consumed fragment. -/
def advanceMany (l c : Nat) : List Char → Nat × Nat
  | [] => (l, c)
  | ch :: rest =>
    let p := advancePos l c ch
    advanceMany p.1 p.2 rest

/-- Core loop of `multispace0`: consume leading whitespace, updating the
position. -/
def skipTrivia : List Char → Nat → Nat → List Char × Nat × Nat
  | [], l, c => ([], l, c)
  | ch :: rest, l, c =>
    if isMultispace ch then
      let p := advancePos l c ch
      skipTrivia rest p.1 p.2
    else (ch :: rest, l, c)

/-- nom's `multispace0` on a located span (the consumed fragment is discarded
by `delimited`, so only the remaining span matters). -/
def multispace0 (s : Span) : Span :=
  let r := skipTrivia s.text s.line s.col
  ⟨r.1, r.2.1, r.2.2⟩

/-- Result type of a recognizer, embedding `IResult<Span, Token>`. -/
abbrev PResult := Except Span (Span × Token)

/-- Body generated by the `token_symbol!` macro: a single-character nom `tag`
whose matched fragment becomes a token of the given kind. -/
def token_symbol (t : Char) (k : TokenKind) (s : Span) : PResult :=
  match s.text with
  | [] => .error s
  | ch :: rest =>
    if ch = t then
      let p := advancePos s.line s.col ch
      .ok (⟨rest, p.1, p.2⟩, ⟨k, [ch], s.line, s.col⟩)
    else .error s

def token_paren_open : Span → PResult := token_symbol '(' .ParenOpen

def token_paren_close : Span → PResult := token_symbol ')' .ParenClose

def token_brace_open : Span → PResult := token_symbol '\x7b' .BraceOpen

def token_brace_close : Span → PResult := token_symbol '\x7d' .BraceClose

def token_colon : Span → PResult := token_symbol ':' .Colon

def token_equal : Span → PResult := token_symbol '=' .Equal

def token_plus : Span → PResult := token_symbol '+' .Plus

def token_minus : Span → PResult := token_symbol '-' .Minus

def token_star : Span → PResult := token_symbol '*' .Star

def token_slash : Span → PResult := token_symbol '/' .Slash

/-- `token_ident`: `recognize(tuple((alpha1, alphanumeric0)))`. nom's `alpha1`
consumes a maximal nonempty run of ASCII letters (failing when the first
character is not a letter), `alphanumeric0` then consumes a maximal (possibly
empty) run of ASCII alphanumerics; `recognize` yields the combined fragment.
Lean's `Char.isAlpha`/`Char.isAlphanum` are the same ASCII classifiers as
nom's `AsChar::is_alpha`/`AsChar::is_alphanum`. -/
def token_ident (s : Span) : PResult :=
  let a := s.text.takeWhile Char.isAlpha
  if a.isEmpty then .error s
  else
    let r1 := s.text.dropWhile Char.isAlpha
    let b := r1.takeWhile Char.isAlphanum
    let r2 := r1.dropWhile Char.isAlphanum
    let frag := a ++ b
    let p := advanceMany s.line s.col frag
    .ok (⟨r2, p.1, p.2⟩, ⟨.Ident, frag, s.line, s.col⟩)

/-- nom's `alt`: try the recognizers in order, returning the first success;
when all fail, the error of the last recognizer is returned (every recognizer
here fails with its whole input, so the error is the input span). -/
def altList : List (Span → PResult) → Span → PResult
  | [], s => .error s
  | [p], s => p s
  | p :: q :: rest, s =>
    match p s with
    | .ok r => .ok r
    | .error _ => altList (q :: rest) s

/-- The alternatives of `next_token`, in source order: the ten symbols, then
the identifier. -/
def recognizers : List (Span → PResult) :=
  [token_paren_open, token_paren_close, token_brace_open, token_brace_close,
   token_colon, token_equal, token_plus, token_minus, token_star, token_slash,
   token_ident]

/-- `next_token = delimited(multispace0, alt(...), multispace0)`. -/
def next_token (s : Span) : PResult :=
  let s1 := multispace0 s
  match altList recognizers s1 with
  | .error e => .error e
  | .ok (s2, t) => .ok (multispace0 s2, t)

/-- A fresh scan of a source text starts at offset 0, line 1, column 1. -/
def mkSpan (text : List Char) : Span :=
  ⟨text, 1, 1⟩

/-- Pull tokens repeatedly (fuelled driver): stop as soon as `next_token`
produces no token. -/
def scan (fuel : Nat) (s : Span) : List Token :=
  match fuel with
  | 0 => []
  | Nat.succ f =>
    match next_token s with
    | .error _ => []
    | .ok (s', t) => t :: scan f s'

/-- Statement-side classifier: the single-character symbol table of the ten
`token_symbol!` instances, in source order. -/
def symbolKind (c : Char) : Option TokenKind :=
  if c = '(' then some .ParenOpen
  else if c = ')' then some .ParenClose
  else if c = '\x7b' then some .BraceOpen
  else if c = '\x7d' then some .BraceClose
  else if c = ':' then some .Colon
  else if c = '=' then some .Equal
  else if c = '+' then some .Plus
  else if c = '-' then some .Minus
  else if c = '*' then some .Star
  else if c = '/' then some .Slash
  else none

/-! ## Helper lemmas -/

theorem not_ws_of_alpha (c : Char) (h : c.isAlpha = true) : isMultispace c = false := by
  by_contra hc
  rw [Bool.not_eq_false] at hc
  simp only [isMultispace, Bool.or_eq_true, decide_eq_true_eq] at hc
  rcases hc with ((h1 | h1) | h1) | h1 <;> subst h1 <;> exact absurd h (by decide)

theorem ne_newline_of_alpha (c : Char) (h : c.isAlpha = true) : c ≠ '\n' :=
  fun he => absurd (he ▸ h) (by decide)

theorem symbolKind_none_elim (c : Char) (h : symbolKind c = none) :
    c ≠ '(' ∧ c ≠ ')' ∧ c ≠ '\x7b' ∧ c ≠ '\x7d' ∧ c ≠ ':' ∧ c ≠ '=' ∧
      c ≠ '+' ∧ c ≠ '-' ∧ c ≠ '*' ∧ c ≠ '/' := by
  refine ⟨?_, ?_, ?_, ?_, ?_, ?_, ?_, ?_, ?_, ?_⟩ <;>
    intro he <;> subst he <;> simp [symbolKind] at h

theorem symbolKind_none_of_alpha (c : Char) (h : c.isAlpha = true) :
    symbolKind c = none := by
  unfold symbolKind
  split_ifs with h1 h2 h3 h4 h5 h6 h7 h8 h9 h10 <;>
    first
      | rfl
      | (subst_vars; exact absurd h (by decide))

theorem skipTrivia_nil_of_all (l : List Char) : ∀ (a b : Nat),
    (∀ c ∈ l, isMultispace c = true) → (skipTrivia l a b).1 = [] := by
  induction l with
  | nil => intro a b _; rfl
  | cons ch rest ih =>
    intro a b hall
    have hch : isMultispace ch = true := hall ch (by simp)
    simp only [skipTrivia, hch, if_true]
    exact ih _ _ (fun c hc => hall c (by simp [hc]))

theorem skipTrivia_head_not_ws (l : List Char) : ∀ (a b : Nat) (c : Char) (rest : List Char),
    (skipTrivia l a b).1 = c :: rest → isMultispace c = false := by
  induction l with
  | nil => intro a b c rest h; simp [skipTrivia] at h
  | cons ch tl ih =>
    intro a b c rest h
    cases hch : isMultispace ch with
    | true =>
      simp only [skipTrivia, hch, if_true] at h
      exact ih _ _ c rest h
    | false =>
      simp only [skipTrivia, hch, Bool.false_eq_true, if_false] at h
      obtain ⟨rfl, -⟩ := List.cons.injEq .. ▸ h
      exact hch

theorem skipTrivia_len_le (l : List Char) : ∀ (a b : Nat),
    (skipTrivia l a b).1.length ≤ l.length := by
  induction l with
  | nil => intro a b; simp [skipTrivia]
  | cons ch tl ih =>
    intro a b
    cases hch : isMultispace ch with
    | true =>
      simp only [skipTrivia, hch, if_true]
      exact le_trans (ih _ _) (by simp)
    | false =>
      simp [skipTrivia, hch]

theorem skipTrivia_of_head (l : List Char) (a b : Nat) (c : Char) (rest : List Char)
    (hl : l = c :: rest) (hc : isMultispace c = false) :
    skipTrivia l a b = (l, a, b) := by
  subst hl
  simp [skipTrivia, hc]

theorem multispace0_text_nil_of_all (s : Span) (h : ∀ c ∈ s.text, isMultispace c = true) :
    (multispace0 s).text = [] :=
  skipTrivia_nil_of_all s.text s.line s.col h

theorem multispace0_eq_self (s : Span) (c : Char) (rest : List Char)
    (hl : s.text = c :: rest) (hc : isMultispace c = false) :
    multispace0 s = s := by
  simp [multispace0, skipTrivia_of_head s.text s.line s.col c rest hl hc]

theorem multispace0_head_not_ws (s : Span) (c : Char) (rest : List Char)
    (h : (multispace0 s).text = c :: rest) : isMultispace c = false :=
  skipTrivia_head_not_ws s.text s.line s.col c rest h

theorem multispace0_len_le (s : Span) : (multispace0 s).text.length ≤ s.text.length :=
  skipTrivia_len_le s.text s.line s.col

/-! ## Recognizer characterizations -/

theorem token_symbol_of_head (t : Char) (k : TokenKind) (s : Span) (rest : List Char)
    (h : s.text = t :: rest) :
    token_symbol t k s =
      .ok (⟨rest, (advancePos s.line s.col t).1, (advancePos s.line s.col t).2⟩,
           ⟨k, [t], s.line, s.col⟩) := by
  unfold token_symbol
  rw [h]
  simp

theorem token_symbol_err (t : Char) (k : TokenKind) (s : Span)
    (h : s.text.head? ≠ some t) : token_symbol t k s = .error s := by
  unfold token_symbol
  cases hst : s.text with
  | nil => rfl
  | cons ch rest =>
    rw [hst] at h
    simp only [List.head?_cons, ne_eq, Option.some.injEq] at h
    simp [h]

theorem token_symbol_isOk_iff (t : Char) (k : TokenKind) (s : Span) :
    (token_symbol t k s).isOk = true ↔ s.text.head? = some t := by
  obtain ⟨txt, l, co⟩ := s
  cases txt with
  | nil =>
    rw [token_symbol_err t k ⟨[], l, co⟩ (by simp)]
    simp [Except.isOk, Except.toBool]
  | cons ch rest =>
    by_cases he : ch = t
    · rw [token_symbol_of_head t k ⟨ch :: rest, l, co⟩ rest (by simp [he])]
      simp [Except.isOk, Except.toBool, he]
    · rw [token_symbol_err t k ⟨ch :: rest, l, co⟩ (by simp [he])]
      simp [Except.isOk, Except.toBool, he]

theorem token_symbol_ok_inv (t : Char) (k : TokenKind) (s r : Span) (tok : Token)
    (h : token_symbol t k s = .ok (r, tok)) :
    s.text = t :: r.text ∧ tok = ⟨k, [t], s.line, s.col⟩ := by
  obtain ⟨txt, l, co⟩ := s
  cases txt with
  | nil =>
    rw [token_symbol_err t k ⟨[], l, co⟩ (by simp)] at h
    exact absurd h (by simp)
  | cons ch rest =>
    by_cases he : ch = t
    · rw [token_symbol_of_head t k ⟨ch :: rest, l, co⟩ rest (by simp [he])] at h
      simp only [Except.ok.injEq, Prod.mk.injEq] at h
      obtain ⟨h1, h2⟩ := h
      subst h1; subst h2
      exact ⟨by simp [he], rfl⟩
    · rw [token_symbol_err t k ⟨ch :: rest, l, co⟩ (by simp [he])] at h
      exact absurd h (by simp)

theorem token_ident_err (s : Span) (h : s.text.takeWhile Char.isAlpha = []) :
    token_ident s = .error s := by
  simp [token_ident, h]

theorem takeWhile_alpha_alnum (l : List Char) :
    l.takeWhile Char.isAlpha ++ (l.dropWhile Char.isAlpha).takeWhile Char.isAlphanum
      = l.takeWhile Char.isAlphanum := by
  induction l with
  | nil => simp
  | cons c rest ih =>
    cases hc : c.isAlpha with
    | false => simp [List.takeWhile_cons, List.dropWhile_cons, hc]
    | true =>
      have ha : c.isAlphanum = true := by simp [Char.isAlphanum, hc]
      simp [List.takeWhile_cons, List.dropWhile_cons, hc, ha, ih]

theorem dropWhile_alpha_alnum (l : List Char) :
    (l.dropWhile Char.isAlpha).dropWhile Char.isAlphanum = l.dropWhile Char.isAlphanum := by
  induction l with
  | nil => simp
  | cons c rest ih =>
    cases hc : c.isAlpha with
    | false => simp [List.dropWhile_cons, hc]
    | true =>
      have ha : c.isAlphanum = true := by simp [Char.isAlphanum, hc]
      simp [List.dropWhile_cons, hc, ha, ih]

theorem token_ident_of_alpha (s : Span) (c : Char) (rest : List Char)
    (h : s.text = c :: rest) (hc : c.isAlpha = true) :
    token_ident s =
      .ok (⟨s.text.dropWhile Char.isAlphanum,
            (advanceMany s.line s.col (s.text.takeWhile Char.isAlphanum)).1,
            (advanceMany s.line s.col (s.text.takeWhile Char.isAlphanum)).2⟩,
          ⟨.Ident, s.text.takeWhile Char.isAlphanum, s.line, s.col⟩) := by
  have hne : (s.text.takeWhile Char.isAlpha).isEmpty = false := by
    rw [h]; simp [List.takeWhile_cons, hc]
  simp only [token_ident, hne, Bool.false_eq_true, if_false,
    takeWhile_alpha_alnum, dropWhile_alpha_alnum]

theorem token_ident_isOk_iff (s : Span) :
    (token_ident s).isOk = true ↔ ∃ c rest, s.text = c :: rest ∧ c.isAlpha = true := by
  obtain ⟨txt, l, co⟩ := s
  cases txt with
  | nil =>
    rw [token_ident_err ⟨[], l, co⟩ rfl]
    simp [Except.isOk, Except.toBool]
  | cons c rest =>
    cases hc : c.isAlpha with
    | true =>
      rw [token_ident_of_alpha ⟨c :: rest, l, co⟩ c rest rfl hc]
      simp only [Except.isOk, Except.toBool, true_iff]
      exact ⟨c, rest, rfl, hc⟩
    | false =>
      rw [token_ident_err ⟨c :: rest, l, co⟩ (by simp [List.takeWhile_cons, hc])]
      simp [Except.isOk, Except.toBool, hc]

theorem token_ident_ok_inv (s r : Span) (tok : Token)
    (h : token_ident s = .ok (r, tok)) :
    tok.text = s.text.takeWhile Char.isAlphanum ∧
      r.text = s.text.dropWhile Char.isAlphanum ∧
      1 ≤ tok.text.length ∧ tok.kind = .Ident := by
  obtain ⟨txt, l, co⟩ := s
  cases txt with
  | nil =>
    rw [token_ident_err ⟨[], l, co⟩ rfl] at h
    exact absurd h (by simp)
  | cons c rest =>
    cases hc : c.isAlpha with
    | false =>
      rw [token_ident_err ⟨c :: rest, l, co⟩ (by simp [List.takeWhile_cons, hc])] at h
      exact absurd h (by simp)
    | true =>
      have ha : c.isAlphanum = true := by simp [Char.isAlphanum, hc]
      rw [token_ident_of_alpha ⟨c :: rest, l, co⟩ c rest rfl hc] at h
      simp only [Except.ok.injEq, Prod.mk.injEq] at h
      obtain ⟨h1, h2⟩ := h
      subst h1; subst h2
      refine ⟨rfl, rfl, ?_, rfl⟩
      have ht : List.takeWhile Char.isAlphanum (c :: rest)
          = c :: rest.takeWhile Char.isAlphanum := by
        simp [List.takeWhile_cons, ha]
      show 1 ≤ (List.takeWhile Char.isAlphanum (c :: rest)).length
      rw [ht]
      simp

/-! ## Lemmas about the alternative chain and next_token -/

theorem altList_ok_mem (ps : List (Span → PResult)) : ∀ (s r : Span) (t : Token),
    altList ps s = .ok (r, t) → ∃ p ∈ ps, p s = .ok (r, t) := by
  induction ps with
  | nil => intro s r t h; simp [altList] at h
  | cons p rest ih =>
    intro s r t h
    cases rest with
    | nil =>
      refine ⟨p, by simp, ?_⟩
      simpa [altList] using h
    | cons q rest2 =>
      simp only [altList] at h
      cases hp : p s with
      | ok pr =>
        rw [hp] at h
        exact ⟨p, by simp, by rw [hp]; exact h⟩
      | error e =>
        rw [hp] at h
        obtain ⟨p', hmem, hp'⟩ := ih s r t h
        exact ⟨p', by simp [hmem], hp'⟩

set_option maxHeartbeats 1600000 in
theorem altList_recognizers_symbol (s : Span) (c : Char) (rest : List Char) (k : TokenKind)
    (hst : s.text = c :: rest) (hk : symbolKind c = some k) :
    altList recognizers s =
      .ok (⟨rest, (advancePos s.line s.col c).1, (advancePos s.line s.col c).2⟩,
           ⟨k, [c], s.line, s.col⟩) := by
  unfold symbolKind at hk
  split_ifs at hk with h1 h2 h3 h4 h5 h6 h7 h8 h9 h10 <;>
    first
      | (exact Option.noConfusion hk)
      | (injection hk with hk2; subst hk2; subst_vars;
         simp [recognizers, altList, token_paren_open, token_paren_close, token_brace_open,
           token_brace_close, token_colon, token_equal, token_plus, token_minus, token_star,
           token_slash, token_symbol, hst, advancePos])

theorem altList_recognizers_ident (s : Span) (c : Char) (rest : List Char)
    (hst : s.text = c :: rest) (hsym : symbolKind c = none) :
    altList recognizers s = token_ident s := by
  obtain ⟨n1, n2, n3, n4, n5, n6, n7, n8, n9, n10⟩ := symbolKind_none_elim c hsym
  simp [recognizers, altList, token_paren_open, token_paren_close, token_brace_open,
    token_brace_close, token_colon, token_equal, token_plus, token_minus, token_star,
    token_slash, token_symbol, hst, n1, n2, n3, n4, n5, n6, n7, n8, n9, n10]

theorem altList_recognizers_nil (s : Span) (hst : s.text = []) :
    altList recognizers s = .error s := by
  simp [recognizers, altList, token_paren_open, token_paren_close, token_brace_open,
    token_brace_close, token_colon, token_equal, token_plus, token_minus, token_star,
    token_slash, token_symbol, token_ident, hst]

theorem next_token_of_alt_err (s : Span) (e : Span)
    (h : altList recognizers (multispace0 s) = .error e) : next_token s = .error e := by
  simp [next_token, h]

theorem next_token_of_alt_ok (s s2 : Span) (t : Token)
    (h : altList recognizers (multispace0 s) = .ok (s2, t)) :
    next_token s = .ok (multispace0 s2, t) := by
  simp [next_token, h]

theorem next_token_ok_inv (s s' : Span) (t : Token)
    (h : next_token s = .ok (s', t)) :
    ∃ s2, altList recognizers (multispace0 s) = .ok (s2, t) ∧ s' = multispace0 s2 := by
  cases halt : altList recognizers (multispace0 s) with
  | error e =>
    rw [next_token_of_alt_err s e halt] at h
    exact absurd h (by simp)
  | ok pr =>
    obtain ⟨s2, t2⟩ := pr
    rw [next_token_of_alt_ok s s2 t2 halt] at h
    simp only [Except.ok.injEq, Prod.mk.injEq] at h
    obtain ⟨h1, h2⟩ := h
    subst h1; subst h2
    exact ⟨s2, rfl, rfl⟩

theorem next_token_nil (s : Span) (h : s.text = []) : next_token s = .error s := by
  have hm : multispace0 s = s := by
    obtain ⟨txt, l, co⟩ := s
    have htxt : txt = [] := h
    subst htxt
    rfl
  exact next_token_of_alt_err s s (by rw [hm]; exact altList_recognizers_nil s h)

theorem next_token_shrink (s s' : Span) (t : Token)
    (h : next_token s = .ok (s', t)) : s'.text.length < s.text.length := by
  obtain ⟨s2, halt, rfl⟩ := next_token_ok_inv s s' t h
  have h2 : s2.text.length < (multispace0 s).text.length := by
    obtain ⟨p, hmem, hp⟩ := altList_ok_mem recognizers (multispace0 s) s2 t halt
    simp only [recognizers, List.mem_cons, List.not_mem_nil, or_false] at hmem
    rcases hmem with rfl | rfl | rfl | rfl | rfl | rfl | rfl | rfl | rfl | rfl | rfl
    · obtain ⟨heq, -⟩ := token_symbol_ok_inv _ _ _ _ _ hp; rw [heq]; simp
    · obtain ⟨heq, -⟩ := token_symbol_ok_inv _ _ _ _ _ hp; rw [heq]; simp
    · obtain ⟨heq, -⟩ := token_symbol_ok_inv _ _ _ _ _ hp; rw [heq]; simp
    · obtain ⟨heq, -⟩ := token_symbol_ok_inv _ _ _ _ _ hp; rw [heq]; simp
    · obtain ⟨heq, -⟩ := token_symbol_ok_inv _ _ _ _ _ hp; rw [heq]; simp
    · obtain ⟨heq, -⟩ := token_symbol_ok_inv _ _ _ _ _ hp; rw [heq]; simp
    · obtain ⟨heq, -⟩ := token_symbol_ok_inv _ _ _ _ _ hp; rw [heq]; simp
    · obtain ⟨heq, -⟩ := token_symbol_ok_inv _ _ _ _ _ hp; rw [heq]; simp
    · obtain ⟨heq, -⟩ := token_symbol_ok_inv _ _ _ _ _ hp; rw [heq]; simp
    · obtain ⟨heq, -⟩ := token_symbol_ok_inv _ _ _ _ _ hp; rw [heq]; simp
    · obtain ⟨htext, hdrop, hlen, -⟩ := token_ident_ok_inv _ _ _ hp
      have hsplit := congrArg List.length (List.takeWhile_append_dropWhile
        (p := Char.isAlphanum) (l := (multispace0 s).text))
      simp only [List.length_append] at hsplit
      rw [htext] at hlen
      rw [hdrop]
      omega
  calc (multispace0 s2).text.length
      ≤ s2.text.length := multispace0_len_le s2
    _ < (multispace0 s).text.length := h2
    _ ≤ s.text.length := multispace0_len_le s

theorem scan_len_le (fuel : Nat) : ∀ s : Span, (scan fuel s).length ≤ s.text.length := by
  induction fuel with
  | zero => intro s; simp [scan]
  | succ f ih =>
    intro s
    cases hnt : next_token s with
    | error e => simp [scan, hnt]
    | ok pr =>
      obtain ⟨s', t⟩ := pr
      have hlt := next_token_shrink s s' t hnt
      have hle := ih s'
      simp only [scan, hnt, List.length_cons]
      omega

theorem scan_single_alpha (c : Char) (hc : c.isAlpha = true) :
    scan 2 (mkSpan [c]) = [⟨.Ident, [c], 1, 1⟩] := by
  have hws := not_ws_of_alpha c hc
  have hnl := ne_newline_of_alpha c hc
  have ha : c.isAlphanum = true := by simp [Char.isAlphanum, hc]
  have hm0 : multispace0 (mkSpan [c]) = mkSpan [c] :=
    multispace0_eq_self _ c [] rfl hws
  have halt : altList recognizers (mkSpan [c]) = token_ident (mkSpan [c]) :=
    altList_recognizers_ident _ c [] rfl (symbolKind_none_of_alpha c hc)
  have hident : token_ident (mkSpan [c]) = .ok (⟨[], 1, 2⟩, ⟨.Ident, [c], 1, 1⟩) := by
    rw [token_ident_of_alpha (mkSpan [c]) c [] rfl hc]
    simp [mkSpan, List.takeWhile_cons, List.dropWhile_cons, ha, advanceMany, advancePos, hnl]
  have hnt : next_token (mkSpan [c]) = .ok (⟨[], 1, 2⟩, ⟨.Ident, [c], 1, 1⟩) := by
    have h2 := next_token_of_alt_ok (mkSpan [c]) ⟨[], 1, 2⟩ ⟨.Ident, [c], 1, 1⟩
      (by rw [hm0, halt, hident])
    simpa [multispace0, skipTrivia] using h2
  have hnt2 := next_token_nil ⟨[], 1, 2⟩ rfl
  simp [scan, hnt, hnt2]

/-! ## Claim theorems -/

/-- Claim C1: pulling tokens from the input "abc123 + (x)" produces exactly
Identifier "abc123" at 1:1, Plus at 1:8, ParenOpen at 1:10, Identifier "x" at
1:11 and ParenClose at 1:12, and afterwards no further token is produced
(fuel 12 exceeds the input length, and the final cursor yields no token). -/
theorem C1_example_sequence :
    scan 12 (mkSpan ("abc123 + (x)".toList)) =
      [⟨.Ident, "abc123".toList, 1, 1⟩, ⟨.Plus, ['+'], 1, 8⟩,
       ⟨.ParenOpen, ['('], 1, 10⟩, ⟨.Ident, ['x'], 1, 11⟩,
       ⟨.ParenClose, [')'], 1, 12⟩] ∧
    next_token (Span.mk [] 1 13) = .error (Span.mk [] 1 13) :=
  ⟨by decide, rfl⟩

/-- Claim C2: when the first character after trivia skipping is neither one of
the ten symbol characters nor an ASCII letter, next_token raises an error (no
token of any kind is fabricated) carrying the post-trivia span, whose first
character is the offending character and whose line/column is its position. -/
theorem C2_unrecognized_error (s : Span) (c : Char) (rest : List Char)
    (hhead : (multispace0 s).text = c :: rest)
    (hsym : symbolKind c = none)
    (halpha : c.isAlpha = false) :
    next_token s = .error (multispace0 s) ∧
      (multispace0 s).text.head? = some c := by
  have hident : token_ident (multispace0 s) = .error (multispace0 s) :=
    token_ident_err _ (by rw [hhead]; simp [List.takeWhile_cons, halpha])
  have halt : altList recognizers (multispace0 s) = .error (multispace0 s) := by
    rw [altList_recognizers_ident _ c rest hhead hsym, hident]
  exact ⟨next_token_of_alt_err s _ halt, by rw [hhead]; simp⟩

/-- Witness for C2 at the input "1abc": the error is raised at line 1,
column 1, for the character '1'. -/
theorem C2_unrecognized_error_witness :
    next_token (mkSpan ("1abc".toList)) = .error (multispace0 (mkSpan ("1abc".toList))) ∧
      (multispace0 (mkSpan ("1abc".toList))).text.head? = some '1' :=
  C2_unrecognized_error (mkSpan ("1abc".toList)) '1' ("abc".toList)
    (by decide) (by decide) (by decide)

/-- Counterexample to claim C3 as stated: on the empty input (a whitespace-only
input), the first pull of next_token does NOT "return nothing rather than a
token or an error" — it returns an error (nom's alt fails on the exhausted
remainder); no token-absent success case exists in its result type. -/
theorem C3_counterexample :
    next_token (mkSpan []) = .error (mkSpan []) ∧
      (next_token (mkSpan [])).isOk = false :=
  ⟨rfl, rfl⟩

/-- Claim C3 as amended: for every input consisting only of whitespace
characters (space, tab, newline, carriage return, including the empty input),
next_token produces no token: it consumes all the trivia and returns an error
whose span is the empty remainder. -/
theorem C3_whitespace_empty (s : Span)
    (h : ∀ c ∈ s.text, isMultispace c = true) :
    next_token s = .error (multispace0 s) ∧ (multispace0 s).text = [] := by
  have hnil := multispace0_text_nil_of_all s h
  exact ⟨next_token_of_alt_err s _ (altList_recognizers_nil _ hnil), hnil⟩

/-- Witness for amended C3 at the whitespace-only input " \t\n\r". -/
theorem C3_whitespace_empty_witness :
    next_token (mkSpan [' ', '\t', '\n', '\r']) =
        .error (multispace0 (mkSpan [' ', '\t', '\n', '\r'])) ∧
      (multispace0 (mkSpan [' ', '\t', '\n', '\r'])).text = [] :=
  C3_whitespace_empty (mkSpan [' ', '\t', '\n', '\r']) (by decide)

/-- Claim C4: the identifier recognizer matches iff the current character is an
ASCII letter; on a match the token text is the maximal alphanumeric run from
the cursor (the leading letter extended greedily through following
letters-or-digits); and any single ASCII letter input yields exactly one
Identifier token of length 1 at line 1, column 1. -/
theorem C4_identifier_recognizer :
    (∀ s : Span, (token_ident s).isOk = true ↔
        ∃ c rest, s.text = c :: rest ∧ c.isAlpha = true) ∧
    (∀ (s : Span) (c : Char) (rest : List Char),
        s.text = c :: rest → c.isAlpha = true →
        ∃ s', token_ident s =
          .ok (s', ⟨.Ident, s.text.takeWhile Char.isAlphanum, s.line, s.col⟩)) ∧
    (∀ c : Char, c.isAlpha = true →
        scan 2 (mkSpan [c]) = [⟨.Ident, [c], 1, 1⟩] ∧ [c].length = 1) :=
  ⟨token_ident_isOk_iff,
   fun s c rest h hc => ⟨_, token_ident_of_alpha s c rest h hc⟩,
   fun c hc => ⟨scan_single_alpha c hc, rfl⟩⟩

/-- Witness for C4 at the inputs "a1b!" (greedy extension stops at '!') and
the single letter "z". -/
theorem C4_identifier_recognizer_witness :
    ((token_ident (mkSpan ("a1b!".toList))).isOk = true ↔
        ∃ c rest, (mkSpan ("a1b!".toList)).text = c :: rest ∧ c.isAlpha = true) ∧
    (∃ s', token_ident (mkSpan ("a1b!".toList)) =
        .ok (s', ⟨.Ident, (mkSpan ("a1b!".toList)).text.takeWhile Char.isAlphanum,
                  (mkSpan ("a1b!".toList)).line, (mkSpan ("a1b!".toList)).col⟩)) ∧
    (scan 2 (mkSpan ['z']) = [⟨.Ident, ['z'], 1, 1⟩] ∧ ['z'].length = 1) :=
  ⟨C4_identifier_recognizer.1 (mkSpan ("a1b!".toList)),
   C4_identifier_recognizer.2.1 (mkSpan ("a1b!".toList)) 'a' ("1b!".toList)
     (by decide) (by decide),
   C4_identifier_recognizer.2.2 'z' (by decide)⟩

/-- Claim C5: each single-character symbol recognizer matches exactly when the
current character equals its literal, and whenever the first character after
trivia skipping is one of the ten symbol characters, next_token emits a
single-character token of the corresponding kind (with the table '(' to
ParenOpen, ')' to ParenClose, braces to BraceOpen/BraceClose, ':' to Colon,
'=' to Equal, '+' to Plus, '-' to Minus, '*' to Star, '/' to Slash recorded by
symbolKind). -/
theorem C5_symbol_recognizers :
    (∀ (t : Char) (k : TokenKind) (s : Span),
        (token_symbol t k s).isOk = true ↔ s.text.head? = some t) ∧
    (∀ (s : Span) (c : Char) (rest : List Char) (k : TokenKind),
        (multispace0 s).text = c :: rest → symbolKind c = some k →
        ∃ s', next_token s =
          .ok (s', ⟨k, [c], (multispace0 s).line, (multispace0 s).col⟩)) :=
  ⟨token_symbol_isOk_iff,
   fun s c rest k h hk =>
     ⟨_, next_token_of_alt_ok s _ _ (altList_recognizers_symbol (multispace0 s) c rest k h hk)⟩⟩

/-- Witness for C5 at each of the ten symbol characters as a one-character
input, each producing the corresponding token kind at line 1, column 1. -/
theorem C5_symbol_recognizers_witness :
    ((token_symbol '(' .ParenOpen (mkSpan ['('])).isOk = true ↔
        (mkSpan ['(']).text.head? = some '(') ∧
    (∃ s', next_token (mkSpan ['(']) =
        .ok (s', ⟨.ParenOpen, ['('], (multispace0 (mkSpan ['('])).line,
                  (multispace0 (mkSpan ['('])).col⟩)) ∧
    (∃ s', next_token (mkSpan [')']) =
        .ok (s', ⟨.ParenClose, [')'], (multispace0 (mkSpan [')'])).line,
                  (multispace0 (mkSpan [')'])).col⟩)) ∧
    (∃ s', next_token (mkSpan ['\x7b']) =
        .ok (s', ⟨.BraceOpen, ['\x7b'], (multispace0 (mkSpan ['\x7b'])).line,
                  (multispace0 (mkSpan ['\x7b'])).col⟩)) ∧
    (∃ s', next_token (mkSpan ['\x7d']) =
        .ok (s', ⟨.BraceClose, ['\x7d'], (multispace0 (mkSpan ['\x7d'])).line,
                  (multispace0 (mkSpan ['\x7d'])).col⟩)) ∧
    (∃ s', next_token (mkSpan [':']) =
        .ok (s', ⟨.Colon, [':'], (multispace0 (mkSpan [':'])).line,
                  (multispace0 (mkSpan [':'])).col⟩)) ∧
    (∃ s', next_token (mkSpan ['=']) =
        .ok (s', ⟨.Equal, ['='], (multispace0 (mkSpan ['='])).line,
                  (multispace0 (mkSpan ['='])).col⟩)) ∧
    (∃ s', next_token (mkSpan ['+']) =
        .ok (s', ⟨.Plus, ['+'], (multispace0 (mkSpan ['+'])).line,
                  (multispace0 (mkSpan ['+'])).col⟩)) ∧
    (∃ s', next_token (mkSpan ['-']) =
        .ok (s', ⟨.Minus, ['-'], (multispace0 (mkSpan ['-'])).line,
                  (multispace0 (mkSpan ['-'])).col⟩)) ∧
    (∃ s', next_token (mkSpan ['*']) =
        .ok (s', ⟨.Star, ['*'], (multispace0 (mkSpan ['*'])).line,
                  (multispace0 (mkSpan ['*'])).col⟩)) ∧
    (∃ s', next_token (mkSpan ['/']) =
        .ok (s', ⟨.Slash, ['/'], (multispace0 (mkSpan ['/'])).line,
                  (multispace0 (mkSpan ['/'])).col⟩)) :=
  ⟨C5_symbol_recognizers.1 '(' .ParenOpen (mkSpan ['(']),
   C5_symbol_recognizers.2 (mkSpan ['(']) '(' [] .ParenOpen (by decide) (by decide),
   C5_symbol_recognizers.2 (mkSpan [')']) ')' [] .ParenClose (by decide) (by decide),
   C5_symbol_recognizers.2 (mkSpan ['\x7b']) '\x7b' [] .BraceOpen (by decide) (by decide),
   C5_symbol_recognizers.2 (mkSpan ['\x7d']) '\x7d' [] .BraceClose (by decide) (by decide),
   C5_symbol_recognizers.2 (mkSpan [':']) ':' [] .Colon (by decide) (by decide),
   C5_symbol_recognizers.2 (mkSpan ['=']) '=' [] .Equal (by decide) (by decide),
   C5_symbol_recognizers.2 (mkSpan ['+']) '+' [] .Plus (by decide) (by decide),
   C5_symbol_recognizers.2 (mkSpan ['-']) '-' [] .Minus (by decide) (by decide),
   C5_symbol_recognizers.2 (mkSpan ['*']) '*' [] .Star (by decide) (by decide),
   C5_symbol_recognizers.2 (mkSpan ['/']) '/' [] .Slash (by decide) (by decide)⟩

/-- Claim C6: the input "a\nb" yields Identifier "a" at 1:1 then Identifier
"b" at 2:1; consuming a newline in trivia increments the line and resets the
column to 1, while consuming any other whitespace character only increments
the column. -/
theorem C6_newline_position :
    scan 3 (mkSpan ['a', '\n', 'b']) =
        [⟨.Ident, ['a'], 1, 1⟩, ⟨.Ident, ['b'], 2, 1⟩] ∧
    (∀ (l c : Nat) (rest : List Char),
        skipTrivia ('\n' :: rest) l c = skipTrivia rest (l + 1) 1) ∧
    (∀ (l c : Nat) (ch : Char) (rest : List Char),
        isMultispace ch = true → ch ≠ '\n' →
        skipTrivia (ch :: rest) l c = skipTrivia rest l (c + 1)) := by
  refine ⟨by decide, ?_, ?_⟩
  · intro l c rest
    simp [skipTrivia, isMultispace, advancePos]
  · intro l c ch rest hws hne
    simp [skipTrivia, hws, advancePos, hne]

/-- Witness for C6's general part at a space character. -/
theorem C6_newline_position_witness :
    skipTrivia [' '] 1 1 = skipTrivia [] 1 2 :=
  C6_newline_position.2.2 1 1 ' ' [] (by decide) (by decide)

/-- Claim C7: tokenization is deterministic — a scan is a pure function of the
source text (two fresh scans of the same text are identical), and next_token
depends only on the cursor's text, line and column. -/
theorem C7_determinism :
    (∀ (text : List Char) (fuel : Nat),
        scan fuel (mkSpan text) = scan fuel (mkSpan text)) ∧
    (∀ s1 s2 : Span, s1.text = s2.text → s1.line = s2.line → s1.col = s2.col →
        next_token s1 = next_token s2) := by
  refine ⟨fun _ _ => rfl, ?_⟩
  intro s1 s2 h1 h2 h3
  obtain ⟨t1, l1, c1⟩ := s1
  obtain ⟨t2, l2, c2⟩ := s2
  have e1 : t1 = t2 := h1
  have e2 : l1 = l2 := h2
  have e3 : c1 = c2 := h3
  subst e1; subst e2; subst e3
  rfl

/-- Witness for C7: two independently constructed scanners over the same
one-character text agree. -/
theorem C7_determinism_witness :
    next_token (mkSpan ['a']) = next_token (Span.mk ['a'] 1 1) :=
  C7_determinism.2 (mkSpan ['a']) (Span.mk ['a'] 1 1) rfl rfl rfl

/-- Claim C8: every token emitted by next_token has text of length at least 1;
zero-length tokens are never produced. -/
theorem C8_token_nonempty (s s' : Span) (t : Token)
    (h : next_token s = .ok (s', t)) : 1 ≤ t.text.length := by
  obtain ⟨s2, halt, -⟩ := next_token_ok_inv s s' t h
  obtain ⟨p, hmem, hp⟩ := altList_ok_mem recognizers (multispace0 s) s2 t halt
  simp only [recognizers, List.mem_cons, List.not_mem_nil, or_false] at hmem
  rcases hmem with rfl | rfl | rfl | rfl | rfl | rfl | rfl | rfl | rfl | rfl | rfl
  · obtain ⟨-, rfl⟩ := token_symbol_ok_inv _ _ _ _ _ hp; simp
  · obtain ⟨-, rfl⟩ := token_symbol_ok_inv _ _ _ _ _ hp; simp
  · obtain ⟨-, rfl⟩ := token_symbol_ok_inv _ _ _ _ _ hp; simp
  · obtain ⟨-, rfl⟩ := token_symbol_ok_inv _ _ _ _ _ hp; simp
  · obtain ⟨-, rfl⟩ := token_symbol_ok_inv _ _ _ _ _ hp; simp
  · obtain ⟨-, rfl⟩ := token_symbol_ok_inv _ _ _ _ _ hp; simp
  · obtain ⟨-, rfl⟩ := token_symbol_ok_inv _ _ _ _ _ hp; simp
  · obtain ⟨-, rfl⟩ := token_symbol_ok_inv _ _ _ _ _ hp; simp
  · obtain ⟨-, rfl⟩ := token_symbol_ok_inv _ _ _ _ _ hp; simp
  · obtain ⟨-, rfl⟩ := token_symbol_ok_inv _ _ _ _ _ hp; simp
  · obtain ⟨-, -, hlen, -⟩ := token_ident_ok_inv _ _ _ hp; exact hlen

/-- Witness for C8 at the input "a". -/
theorem C8_token_nonempty_witness :
    next_token (mkSpan ['a']) = .ok (Span.mk [] 1 2, Token.mk .Ident ['a'] 1 1) ∧
      1 ≤ (Token.mk .Ident ['a'] 1 1).text.length :=
  ⟨rfl, C8_token_nonempty (mkSpan ['a']) (Span.mk [] 1 2)
    (Token.mk .Ident ['a'] 1 1) rfl⟩

/-- Claim C9: whenever next_token succeeds, the remaining unconsumed input is
strictly shorter than before, so repeatedly pulling tokens from a finite input
terminates after at most input-length successful pulls (the number of tokens
produced never exceeds the input length). -/
theorem C9_cursor_advances :
    (∀ (s s' : Span) (t : Token),
        next_token s = .ok (s', t) → s'.text.length < s.text.length) ∧
    (∀ (fuel : Nat) (s : Span), (scan fuel s).length ≤ s.text.length) :=
  ⟨next_token_shrink, fun fuel s => scan_len_le fuel s⟩

/-- Witness for C9 at the input "a": the remainder shrinks from 1 to 0. -/
theorem C9_cursor_advances_witness :
    (Span.mk [] 1 2).text.length < (mkSpan ['a']).text.length :=
  C9_cursor_advances.1 (mkSpan ['a']) (Span.mk [] 1 2)
    (Token.mk .Ident ['a'] 1 1) rfl

/-- Claim C10: on every successful call, next_token consumes trailing trivia
as well: the returned remainder is empty or starts with a non-whitespace
character. -/
theorem C10_trailing_trivia (s s' : Span) (t : Token)
    (h : next_token s = .ok (s', t)) (c : Char) (rest : List Char)
    (hrem : s'.text = c :: rest) : isMultispace c = false := by
  obtain ⟨s2, -, rfl⟩ := next_token_ok_inv s s' t h
  exact multispace0_head_not_ws s2 c rest hrem

/-- Witness for C10 at the input "a b": after pulling Identifier "a", the
trailing space is consumed and the remainder starts at 'b'. -/
theorem C10_trailing_trivia_witness : isMultispace 'b' = false :=
  C10_trailing_trivia (mkSpan ['a', ' ', 'b']) (Span.mk ['b'] 1 3)
    (Token.mk .Ident ['a'] 1 1) rfl 'b' [] rfl

end Yuri
